import Mathlib

/-!
Verification of the rate-limited request admission and resilient-execution
layer of an MCP server for the Trello REST API (`src/trello-client.ts`),
together with a handful of helper functions of the client.

The embedding follows the TypeScript source closely:

* `handleRequest` (trello-client.ts, lines 156-180) is modelled as a
  fuel-indexed recursive function over a trace of classified outcomes of the
  caller-supplied request function: on a 429 axios error it waits and retries
  (recursively), on any other axios error it raises an `McpError` carrying the
  status, message and response data, and on a non-axios error it raises a
  generic `McpError`.  The fuel only bounds how far we unfold the recursion;
  `none` means the computation is still retrying after `fuel` invocations.
* The rate-limiting interceptor (lines 72-76) makes every axios request await
  `waitForAvailableToken` before the network call; this is modelled as an
  event trace in which each invocation of the request function emits a
  token-wait event followed by the upstream call.
* The rate limiter itself (`src/rate-limiter.ts`) is not part of the sources;
  the sliding-window limiter and the wait queue are modelled from the spec.
-/

namespace Trello

/-- MCP error codes used by the client (from the MCP SDK). -/
inductive ErrorCode where
  | internalError
  | invalidParams
  | invalidRequest
deriving DecidableEq, Repr

/-- An `McpError` as thrown by the client: code, message, and optional data
(the upstream response body). -/
structure McpError where
  code : ErrorCode
  message : String
  data : Option String
deriving DecidableEq, Repr

/-- Classified outcome of one invocation of the caller-supplied request
function `requestFn`: a value, an axios error (with the optional HTTP status
of `error.response`, the error message, and the optional response body), or a
non-axios error. -/
inductive ReqOutcome (T : Type) where
  | ok (v : T)
  | axiosError (status : Option Nat) (message : String) (data : Option String)
  | otherError (detail : String)
deriving DecidableEq, Repr

/-- Result of `handleRequest`: the value returned to the caller, or the
`McpError` thrown. -/
inductive HRResult (T : Type) where
  | ok (v : T)
  | err (e : McpError)
deriving DecidableEq, Repr

/-- How `error.response?.status` is rendered inside the template string
`Trello API Error: ${error.response?.status} ${error.message}`:
a missing response prints as `undefined`. -/
def statusText : Option Nat → String
  | none => "undefined"
  | some s => toString s

/-- The `McpError` built for a non-429 axios error
(trello-client.ts lines 170-174). -/
def trelloApiError (status : Option Nat) (message : String)
    (data : Option String) : McpError :=
  ⟨ErrorCode.internalError, "Trello API Error: " ++ statusText status ++ " " ++ message, data⟩

/-- The `McpError` built for a non-axios error (trello-client.ts line 177). -/
def unexpectedError : McpError :=
  ⟨ErrorCode.internalError, "An unexpected error occurred", none⟩

/-- Shallow embedding of `handleRequest` (trello-client.ts lines 156-180).
`trace i` is the classified outcome of the `i`-th invocation of `requestFn`.
The function tries the current invocation; on a 429 axios error it retries
recursively, on any other axios error or a non-axios error it returns the
thrown `McpError`.  `fuel` bounds the number of invocations we unfold:
`none` means the recursion is still running after `fuel` invocations. -/
def handleRequest {T : Type} (trace : Nat → ReqOutcome T) : Nat → Nat → Option (HRResult T)
  | _, 0 => none
  | i, fuel + 1 =>
    match trace i with
    | .ok v => some (.ok v)
    | .axiosError status msg data =>
      if status = some 429 then
        handleRequest trace (i + 1) fuel
      else
        some (.err (trelloApiError status msg data))
    | .otherError _ => some (.err unexpectedError)

/-- Number of invocations of `requestFn` performed by `handleRequest trace i fuel`. -/
def handleRequestCalls {T : Type} (trace : Nat → ReqOutcome T) : Nat → Nat → Nat
  | _, 0 => 0
  | i, fuel + 1 =>
    match trace i with
    | .ok _ => 1
    | .axiosError status _ _ =>
      if status = some 429 then 1 + handleRequestCalls trace (i + 1) fuel else 1
    | .otherError _ => 1

/-- Events observable during one execution of `handleRequest`: the
rate-limiting request interceptor awaiting `waitForAvailableToken`
(trello-client.ts lines 72-76), and the upstream HTTP call itself. -/
inductive Event where
  | tokenWait
  | upstreamCall
deriving DecidableEq, Repr

/-- Event trace of `handleRequest`: every invocation of `requestFn` performs
one axios request, which first runs the rate-limiting interceptor
(`tokenWait`) and then the upstream call; a 429 outcome leads to a retry that
repeats the same pair. -/
def handleRequestEvents {T : Type} (trace : Nat → ReqOutcome T) : Nat → Nat → List Event
  | _, 0 => []
  | i, fuel + 1 =>
    Event.tokenWait :: Event.upstreamCall ::
      (match trace i with
       | .axiosError status _ _ =>
         if status = some 429 then handleRequestEvents trace (i + 1) fuel else []
       | _ => [])

/-- A request function whose every invocation yields HTTP 429. -/
def alwaysThrottled : Nat → ReqOutcome Nat :=
  fun _ => .axiosError (some 429) "Request failed with status code 429" none

/-- A request function that yields 429 twice and then a value. -/
def twiceThrottledThenOk : Nat → ReqOutcome Nat :=
  fun i => if i < 2 then .axiosError (some 429) "Request failed with status code 429" none
           else .ok 7

/-- Recognizer for a throttling (429 axios) outcome. -/
def ReqOutcome.isThrottle {T : Type} : ReqOutcome T → Bool
  | .axiosError s _ _ => s = some 429
  | _ => false

/-- A request function whose single invocation yields a 400 response with a
body, as produced by an invalid request. -/
def invalidRequestOnce : Nat → ReqOutcome Nat :=
  fun _ => .axiosError (some 400) "Request failed with status code 400" (some "invalid id")

/-- Unfolding lemma: a 429 outcome at invocation `i` makes `handleRequest`
retry at invocation `i + 1`. -/
theorem handleRequest_step_throttle {T : Type} (trace : Nat → ReqOutcome T)
    (i fuel : Nat) (m : String) (d : Option String)
    (h : trace i = .axiosError (some 429) m d) :
    handleRequest trace i (fuel + 1) = handleRequest trace (i + 1) fuel := by
  simp [handleRequest, h]

/-- Unfolding lemma: a success outcome at invocation `i` returns the value. -/
theorem handleRequest_step_ok {T : Type} (trace : Nat → ReqOutcome T)
    (i fuel : Nat) (v : T) (h : trace i = .ok v) :
    handleRequest trace i (fuel + 1) = some (.ok v) := by
  simp [handleRequest, h]

/-- Unfolding lemma for the call counter on a 429 outcome. -/
theorem handleRequestCalls_step_throttle {T : Type} (trace : Nat → ReqOutcome T)
    (i fuel : Nat) (m : String) (d : Option String)
    (h : trace i = .axiosError (some 429) m d) :
    handleRequestCalls trace i (fuel + 1) = 1 + handleRequestCalls trace (i + 1) fuel := by
  simp [handleRequestCalls, h]

/-- Unfolding lemma for the call counter on a success outcome. -/
theorem handleRequestCalls_step_ok {T : Type} (trace : Nat → ReqOutcome T)
    (i fuel : Nat) (v : T) (h : trace i = .ok v) :
    handleRequestCalls trace i (fuel + 1) = 1 := by
  simp [handleRequestCalls, h]

/-- C1 (counterexample): the claim says an always-throttled operation is
invoked exactly `maxAttempts` times and then terminates with an
exhausted-retry error.  On the code there is no attempt bound at all: after 5
unfolding steps the recursion has already made 5 invocations and is still
running (no terminal error), and one more step of fuel yields a 6th
invocation. -/
theorem C1_counterexample :
    handleRequest alwaysThrottled 0 5 = none ∧
    handleRequestCalls alwaysThrottled 0 5 = 5 ∧
    handleRequestCalls alwaysThrottled 0 6 = 6 := by
  refine ⟨rfl, rfl, rfl⟩

/-- Helper: an always-throttled trace keeps `handleRequest` running forever,
with one invocation per unit of fuel. -/
theorem handleRequest_throttled_run {T : Type} (trace : Nat → ReqOutcome T)
    (h : ∀ i, (trace i).isThrottle = true) :
    ∀ fuel i, handleRequest trace i fuel = none ∧ handleRequestCalls trace i fuel = fuel := by
  intro fuel
  induction fuel with
  | zero => intro i; exact ⟨rfl, rfl⟩
  | succ n ih =>
    intro i
    have hi := h i
    cases ht : trace i with
    | ok v => rw [ht] at hi; simp [ReqOutcome.isThrottle] at hi
    | otherError detail => rw [ht] at hi; simp [ReqOutcome.isThrottle] at hi
    | axiosError status msg data =>
      rw [ht] at hi
      simp only [ReqOutcome.isThrottle, decide_eq_true_eq] at hi
      subst hi
      refine ⟨?_, ?_⟩
      · rw [handleRequest_step_throttle trace i n msg data ht]
        exact (ih (i + 1)).1
      · rw [handleRequestCalls_step_throttle trace i n msg data ht, (ih (i + 1)).2]
        omega

/-- C1 (amended): an operation whose every invocation reports HTTP 429 is
retried by `handleRequest` without any bound: for every `fuel`, after `fuel`
invocations the recursion is still running (`none`) and the invocation count
equals `fuel`; no exhausted-retry error is ever produced. -/
theorem handleRequest_throttled_unbounded {T : Type} (trace : Nat → ReqOutcome T)
    (h : ∀ i, (trace i).isThrottle = true) :
    ∀ fuel i, handleRequest trace i fuel = none ∧ handleRequestCalls trace i fuel = fuel :=
  handleRequest_throttled_run trace h

/-- C1 (witness): the amended theorem instantiated at the concrete
always-throttled request function with fuel 6. -/
theorem handleRequest_throttled_unbounded_witness :
    handleRequest alwaysThrottled 0 6 = none ∧
    handleRequestCalls alwaysThrottled 0 6 = 6 :=
  handleRequest_throttled_unbounded alwaysThrottled (fun _ => rfl) 6 0

/-- C3: an operation that reports 429 on exactly its first two invocations
and a success value on its third is invoked exactly 3 times by
`handleRequest`, and that success value is what is returned to the caller. -/
theorem handleRequest_two_throttles_then_success {T : Type} (trace : Nat → ReqOutcome T)
    (v : T) (fuel : Nat) (m0 m1 : String) (d0 d1 : Option String)
    (h0 : trace 0 = .axiosError (some 429) m0 d0)
    (h1 : trace 1 = .axiosError (some 429) m1 d1)
    (h2 : trace 2 = .ok v) (hf : 3 ≤ fuel) :
    handleRequest trace 0 fuel = some (.ok v) ∧ handleRequestCalls trace 0 fuel = 3 := by
  obtain ⟨f, rfl⟩ : ∃ f, fuel = f + 3 := ⟨fuel - 3, by omega⟩
  have e3 : f + 3 = (f + 2) + 1 := rfl
  have e2 : f + 2 = (f + 1) + 1 := rfl
  constructor
  · rw [e3, handleRequest_step_throttle trace 0 (f + 2) m0 d0 h0,
      e2, handleRequest_step_throttle trace 1 (f + 1) m1 d1 h1,
      handleRequest_step_ok trace 2 f v h2]
  · rw [e3, handleRequestCalls_step_throttle trace 0 (f + 2) m0 d0 h0,
      e2, handleRequestCalls_step_throttle trace 1 (f + 1) m1 d1 h1,
      handleRequestCalls_step_ok trace 2 f v h2]

/-- C3 (witness): the theorem instantiated at a concrete request function
that yields 429, 429, then the value 7, with fuel 3. -/
theorem handleRequest_two_throttles_then_success_witness :
    handleRequest twiceThrottledThenOk 0 3 = some (.ok 7) ∧
    handleRequestCalls twiceThrottledThenOk 0 3 = 3 :=
  handleRequest_two_throttles_then_success twiceThrottledThenOk 7 3
    "Request failed with status code 429" "Request failed with status code 429"
    none none rfl rfl rfl (by omega)

/-- C4: an operation whose first invocation reports a non-throttling 4xx
axios error is invoked exactly once, never retried, and `handleRequest`
immediately raises the `McpError` whose message carries the upstream status
and whose data field carries the upstream response body. -/
theorem handleRequest_invalid_request_no_retry {T : Type} (trace : Nat → ReqOutcome T)
    (s : Nat) (msg : String) (d : Option String) (fuel : Nat)
    (h : trace 0 = .axiosError (some s) msg d)
    (h4 : 400 ≤ s) (h5 : s < 500) (hne : s ≠ 429) (hf : 0 < fuel) :
    handleRequest trace 0 fuel = some (.err (trelloApiError (some s) msg d)) ∧
    handleRequestCalls trace 0 fuel = 1 ∧
    (trelloApiError (some s) msg d).message = "Trello API Error: " ++ toString s ++ " " ++ msg ∧
    (trelloApiError (some s) msg d).data = d := by
  obtain ⟨f, rfl⟩ : ∃ f, fuel = f + 1 := ⟨fuel - 1, by omega⟩
  refine ⟨?_, ?_, rfl, rfl⟩
  · simp [handleRequest, h, hne]
  · simp [handleRequestCalls, h, hne]

/-- C4 (witness): the theorem instantiated at a concrete request function
returning a 400 response with body detail. -/
theorem handleRequest_invalid_request_no_retry_witness :
    handleRequest invalidRequestOnce 0 1 =
      some (.err (trelloApiError (some 400) "Request failed with status code 400"
        (some "invalid id"))) ∧
    handleRequestCalls invalidRequestOnce 0 1 = 1 ∧
    (trelloApiError (some 400) "Request failed with status code 400"
      (some "invalid id")).message =
      "Trello API Error: " ++ toString 400 ++ " " ++ "Request failed with status code 400" ∧
    (trelloApiError (some 400) "Request failed with status code 400"
      (some "invalid id")).data = some "invalid id" :=
  handleRequest_invalid_request_no_retry invalidRequestOnce 400
    "Request failed with status code 400" (some "invalid id") 1 rfl
    (by omega) (by omega) (by omega) (by omega)

/-- Helper: whenever `handleRequest` terminates with an error, that error is
the `McpError` built from a non-429 outcome actually observed at some
invocation `k` within the executed range. -/
theorem handleRequest_err_source {T : Type} (trace : Nat → ReqOutcome T) :
    ∀ fuel i e, handleRequest trace i fuel = some (.err e) →
      ∃ k, i ≤ k ∧ k < i + fuel ∧
        ((∃ s m d, trace k = .axiosError s m d ∧ s ≠ some 429 ∧ e = trelloApiError s m d) ∨
         (∃ detail, trace k = .otherError detail ∧ e = unexpectedError)) := by
  intro fuel
  induction fuel with
  | zero => intro i e h; simp [handleRequest] at h
  | succ n ih =>
    intro i e h
    cases ht : trace i with
    | ok v =>
      rw [handleRequest_step_ok trace i n v ht] at h
      simp at h
    | otherError detail =>
      have hb : handleRequest trace i (n + 1) = some (.err unexpectedError) := by
        simp [handleRequest, ht]
      rw [hb] at h
      obtain rfl : unexpectedError = e := by simpa using h
      exact ⟨i, le_refl i, by omega, Or.inr ⟨detail, ht, rfl⟩⟩
    | axiosError status m d =>
      by_cases hs : status = some 429
      · subst hs
        rw [handleRequest_step_throttle trace i n m d ht] at h
        obtain ⟨k, hk1, hk2, hk3⟩ := ih (i + 1) e h
        exact ⟨k, by omega, by omega, hk3⟩
      · have hb : handleRequest trace i (n + 1) = some (.err (trelloApiError status m d)) := by
          simp [handleRequest, ht, hs]
        rw [hb] at h
        obtain rfl : trelloApiError status m d = e := by simpa using h
        exact ⟨i, le_refl i, by omega, Or.inl ⟨status, m, d, ht, hs, rfl⟩⟩

/-- C5 (counterexample): the claim says every error path surfaces the
observed error and that the terminal exhausted-retries outcome surfaces the
last error plus the attempt count.  On the code: after 7 invocations of an
always-throttled operation no outcome has been surfaced at all (there is no
exhausted-retries outcome), and two non-axios errors with different observed
details are surfaced as the same fixed generic `McpError`, discarding the
observed detail. -/
theorem C5_counterexample :
    handleRequest alwaysThrottled 0 7 = none ∧
    handleRequestCalls alwaysThrottled 0 7 = 7 ∧
    handleRequest (fun _ => ReqOutcome.otherError (T := Nat) "ECONNRESET") 0 1 =
      handleRequest (fun _ => ReqOutcome.otherError (T := Nat) "disk full") 0 1 ∧
    handleRequest (fun _ => ReqOutcome.otherError (T := Nat) "ECONNRESET") 0 1 =
      some (.err unexpectedError) := by
  refine ⟨rfl, rfl, rfl, rfl⟩

/-- C5 (amended): every terminating error of `handleRequest` is built from a
failure actually observed at some invocation, with non-429 axios errors
surfaced with their status, message and body; but a non-axios error is
surfaced as the fixed generic `McpError`, discarding the observed detail, and
an always-throttled operation never terminates, so there is no
exhausted-retries outcome that could carry a last error or an attempt
count. -/
theorem handleRequest_error_surfacing {T : Type} (trace : Nat → ReqOutcome T)
    (i fuel : Nat) :
    (∀ e, handleRequest trace i fuel = some (.err e) →
      ∃ k, i ≤ k ∧ k < i + fuel ∧
        ((∃ s m d, trace k = .axiosError s m d ∧ s ≠ some 429 ∧ e = trelloApiError s m d) ∨
         (∃ detail, trace k = .otherError detail ∧ e = unexpectedError))) ∧
    (∀ detail, trace i = .otherError detail → 0 < fuel →
      handleRequest trace i fuel = some (.err unexpectedError)) ∧
    ((∀ j, (trace j).isThrottle = true) → handleRequest trace i fuel = none) := by
  refine ⟨fun e h => handleRequest_err_source trace fuel i e h, ?_, ?_⟩
  · intro detail hd hf
    obtain ⟨f, rfl⟩ : ∃ f, fuel = f + 1 := ⟨fuel - 1, by omega⟩
    simp [handleRequest, hd]
  · intro h
    exact (handleRequest_throttled_run trace h fuel i).1

/-- C5 (witness): the amended theorem applied at the always-throttled
request function with fuel 4, discharging the throttling hypothesis. -/
theorem handleRequest_error_surfacing_witness :
    handleRequest alwaysThrottled 0 4 = none :=
  (handleRequest_error_surfacing alwaysThrottled 0 4).2.2 (fun _ => rfl)

/-- C6: in the event trace of `handleRequest`, every upstream call —
including every retried call after a 429 — is immediately preceded by a
rate-limiter admission (`waitForAvailableToken` run by the request
interceptor); the executor never re-executes after a throttle without
re-acquiring admission. -/
theorem handleRequestEvents_admission_before_call {T : Type} (trace : Nat → ReqOutcome T) :
    ∀ fuel i k, (handleRequestEvents trace i fuel)[k]? = some Event.upstreamCall →
      0 < k ∧ (handleRequestEvents trace i fuel)[k - 1]? = some Event.tokenWait := by
  intro fuel
  induction fuel with
  | zero => intro i k h; simp [handleRequestEvents] at h
  | succ n ih =>
    intro i k h
    match k with
    | 0 => simp [handleRequestEvents] at h
    | 1 => exact ⟨Nat.one_pos, by simp [handleRequestEvents]⟩
    | (k' + 2) =>
      cases ht : trace i with
      | ok v =>
        simp [handleRequestEvents, ht] at h
      | otherError detail =>
        simp [handleRequestEvents, ht] at h
      | axiosError status m d =>
        by_cases hs : status = some 429
        · simp only [handleRequestEvents, ht, hs, if_pos, List.getElem?_cons_succ] at h
          obtain ⟨hk, htw⟩ := ih (i + 1) k' h
          obtain ⟨k'', rfl⟩ : ∃ k'', k' = k'' + 1 := ⟨k' - 1, by omega⟩
          refine ⟨by omega, ?_⟩
          simp only [handleRequestEvents, ht, hs, if_pos]
          have hidx : k'' + 1 + 2 - 1 = k'' + 1 + 1 := by omega
          rw [hidx]
          simpa using htw
        · simp [handleRequestEvents, ht, hs] at h

/-- C6 (witness): the theorem applied at the concrete trace that throttles
twice and then succeeds: the third upstream call (index 5 of the event list)
is preceded by an admission at index 4. -/
theorem handleRequestEvents_admission_before_call_witness :
    0 < 5 ∧ (handleRequestEvents twiceThrottledThenOk 0 3)[5 - 1]? = some Event.tokenWait :=
  handleRequestEvents_admission_before_call twiceThrottledThenOk 3 0 5 rfl

/-- Modelled from the spec: the rate limiter implementation
(`src/rate-limiter.ts`, used through `createTrelloRateLimiters` and
`waitForAvailableToken`) is not among the sources.  This models the spec's
`RateWindow` (§3, §4.1): a capacity, a window duration, and a usage log of
admission timestamps. -/
structure RateWindow where
  capacity : Nat
  duration : Nat
  usageLog : List Nat
deriving DecidableEq, Repr

/-- Modelled from the spec: lazy pruning on every call — drop every usage
event that has aged out of the trailing window `(now - duration, now]`
(an event `t` is still in the window iff `now < t + duration`). -/
def RateWindow.prune (w : RateWindow) (now : Nat) : RateWindow :=
  { w with usageLog := w.usageLog.filter (fun t => now < t + w.duration) }

/-- Modelled from the spec: `tryConsume(now)` prunes lazily, then reports
admission and records `now` in the usage log iff fewer than `capacity`
entries remain within the window. -/
def RateWindow.tryConsume (w : RateWindow) (now : Nat) : Bool × RateWindow :=
  let w' := w.prune now
  if w'.usageLog.length < w'.capacity then
    (true, { w' with usageLog := w'.usageLog ++ [now] })
  else
    (false, w')

/-- A limiter state together with the ghost list of all admissions ever
granted (admissions are never removed from the ghost list, while the usage
log is pruned lazily). -/
structure LimiterRun where
  window : RateWindow
  granted : List Nat
deriving DecidableEq, Repr

/-- Modelled from the spec: one serialized admission request at time `now`
(spec §5: mutation of the limiter state is a single critical section, so any
interleaving of concurrent acquirers is some serial sequence of `tryConsume`
calls at nondecreasing times). -/
def limiterStep (s : LimiterRun) (now : Nat) : LimiterRun :=
  let r := s.window.tryConsume now
  { window := r.2, granted := if r.1 then s.granted ++ [now] else s.granted }

/-- Run the limiter from an empty window over a serialized sequence of
admission-request times. -/
def limiterRun (cap dur : Nat) (ts : List Nat) : LimiterRun :=
  ts.foldl limiterStep ⟨⟨cap, dur, []⟩, []⟩

/-- Number of granted admissions whose timestamps lie within the trailing
window `(tstar - dur, tstar]`. -/
def grantsInWindow (granted : List Nat) (dur tstar : Nat) : Nat :=
  (granted.filter (fun a => decide (tstar < a + dur) && decide (a ≤ tstar))).length

/-- Invariant of a limiter run, relative to the time `t0` of the last
processed request: the usage log is exactly the set of granted admissions
still inside the trailing window at `t0`, and no trailing window of length
`dur` anywhere contains more than `cap` admissions. -/
def LimiterInv (cap dur t0 : Nat) (s : LimiterRun) : Prop :=
  s.window.capacity = cap ∧ s.window.duration = dur ∧
  s.window.usageLog = s.granted.filter (fun a => decide (t0 < a + dur)) ∧
  ∀ tstar, grantsInWindow s.granted dur tstar ≤ cap

/-- Helper: the limiter invariant holds in the initial (empty) state. -/
theorem limiterInv_init (cap dur : Nat) :
    LimiterInv cap dur 0 ⟨⟨cap, dur, []⟩, []⟩ := by
  refine ⟨rfl, rfl, rfl, fun tstar => ?_⟩
  simp [grantsInWindow]

/-- Helper: one serialized admission request at a time `now ≥ t0` preserves
the limiter invariant. -/
theorem limiterStep_inv (cap dur : Nat) (hdur : 0 < dur) (t0 now : Nat) (hle : t0 ≤ now)
    (s : LimiterRun) (hinv : LimiterInv cap dur t0 s) :
    LimiterInv cap dur now (limiterStep s now) := by
  obtain ⟨hcap, hdurw, hlog, hquota⟩ := hinv
  have hprune : (s.window.prune now).usageLog =
      s.granted.filter (fun a => decide (now < a + dur)) := by
    rw [RateWindow.prune, hdurw, hlog, List.filter_filter]
    refine List.filter_congr ?_
    intro a _
    by_cases hna : now < a + dur
    · have ht0a : t0 < a + dur := by omega
      simp [hna, ht0a]
    · simp [hna]
  rw [limiterStep, RateWindow.tryConsume]
  have hpc : (s.window.prune now).capacity = cap := hcap
  have hpd : (s.window.prune now).duration = dur := hdurw
  by_cases hlt : (s.window.prune now).usageLog.length < (s.window.prune now).capacity
  · -- admitted: a new usage event is recorded at `now`
    simp only [hlt, if_true]
    refine ⟨hpc, hpd, ?_, ?_⟩
    · rw [List.filter_append, hprune]
      have hself : now < now + dur := by omega
      simp [hself]
    · intro tstar
      rw [grantsInWindow, List.filter_append]
      by_cases hin : tstar < now + dur ∧ now ≤ tstar
      · have hcount : (s.granted.filter
            (fun a => decide (tstar < a + dur) && decide (a ≤ tstar))).length ≤
            (s.granted.filter (fun a => decide (now < a + dur))).length := by
          rw [← List.countP_eq_length_filter, ← List.countP_eq_length_filter]
          refine List.countP_mono_left ?_
          intro a _ hpa
          have h1 : tstar < a + dur ∧ a ≤ tstar := by
            constructor
            · exact of_decide_eq_true (Bool.and_elim_left hpa)
            · exact of_decide_eq_true (Bool.and_elim_right hpa)
          have : now < a + dur := by omega
          simpa using this
        have hltc : (s.granted.filter (fun a => decide (now < a + dur))).length < cap := by
          have hx := hlt
          rw [hpc, hprune] at hx
          exact hx
        have hsingle : ([now].filter
            (fun a => decide (tstar < a + dur) && decide (a ≤ tstar))) = [now] := by
          simp [hin.1, hin.2]
        rw [hsingle, List.length_append, List.length_singleton]
        omega
      · have hnone : ([now].filter (fun a => decide (tstar < a + dur) && decide (a ≤ tstar))) = [] := by
          rcases Decidable.not_and_iff_or_not.mp hin with h | h
          · simp [h]
          · simp [h]
        rw [hnone, List.append_nil]
        exact hquota tstar
  · -- rejected: nothing is recorded, the log is merely pruned
    simp only [hlt, if_false]
    exact ⟨hpc, hpd, hprune, hquota⟩

/-- Helper: the quota invariant propagated along a whole run of serialized
admission requests at nondecreasing times. -/
theorem limiterRun_inv (cap dur : Nat) (hdur : 0 < dur) :
    ∀ (ts : List Nat) (t0 : Nat) (s : LimiterRun), LimiterInv cap dur t0 s →
      List.Chain (· ≤ ·) t0 ts →
      ∀ tstar, grantsInWindow (ts.foldl limiterStep s).granted dur tstar ≤ cap := by
  intro ts
  induction ts with
  | nil => intro t0 s hinv _ tstar; exact hinv.2.2.2 tstar
  | cons now rest ih =>
    intro t0 s hinv hchain tstar
    cases hchain with
    | cons hle hchain =>
      exact ih now (limiterStep s now)
        (limiterStep_inv cap dur hdur t0 now hle s hinv) hchain tstar

/-- C2: for a rate window of capacity `cap` and positive duration `dur`, and
for every serialized interleaving of admission requests at nondecreasing
times (the limiter state is mutated inside one critical section, so every
concurrent interleaving is such a sequence), the number of granted
admissions whose timestamps lie within any trailing window of length `dur`
never exceeds `cap`. -/
theorem rateWindow_quota_invariant (cap dur : Nat) (ts : List Nat)
    (hdur : 0 < dur) (hmono : List.Chain (· ≤ ·) 0 ts) (tstar : Nat) :
    grantsInWindow (limiterRun cap dur ts).granted dur tstar ≤ cap :=
  limiterRun_inv cap dur hdur ts 0 ⟨⟨cap, dur, []⟩, []⟩ (limiterInv_init cap dur) hmono tstar

/-- C2 (witness): the quota invariant at a concrete run — capacity 2,
duration 10, five requests at times 0, 0, 0, 5, 12 — evaluated at the
trailing window ending at time 12. -/
theorem rateWindow_quota_invariant_witness :
    0 < 10 ∧ grantsInWindow (limiterRun 2 10 [0, 0, 0, 5, 12]).granted 10 12 ≤ 2 :=
  ⟨by omega, rateWindow_quota_invariant 2 10 [0, 0, 0, 5, 12] (by omega)
    (List.Chain.cons (by omega) (List.Chain.cons (by omega) (List.Chain.cons (by omega)
      (List.Chain.cons (by omega) (List.Chain.cons (by omega) List.Chain.nil))))) 12⟩

/-- Modelled from the spec: events observed by the wait queue of suspended
acquirers (spec §4.3): a caller enqueues on the exhausted window, or a slot
frees and the queue is notified (`notifyCapacityMayBeAvailable`), which
examines only the head of the queue and grants it the freed slot. -/
inductive QueueEvent where
  | enq (c : Nat)
  | wake
deriving DecidableEq, Repr

/-- Modelled from the spec: the wait queue state — callers already granted
admission, in grant order, and callers still suspended, in enqueue order. -/
structure WaitQueueState where
  grantedOrder : List Nat
  waiting : List Nat
deriving DecidableEq, Repr

/-- Modelled from the spec: one wait-queue transition.  An enqueue appends
the caller at the tail; a wake-up grants the freed slot to the head of the
queue (the longest-waiting caller) and to nobody else. -/
def queueStep (s : WaitQueueState) : QueueEvent → WaitQueueState
  | .enq c => { s with waiting := s.waiting ++ [c] }
  | .wake =>
    match s.waiting with
    | [] => s
    | c :: rest => { grantedOrder := s.grantedOrder ++ [c], waiting := rest }

/-- Run the wait queue from the empty state over a sequence of events. -/
def queueRun (evs : List QueueEvent) : WaitQueueState :=
  evs.foldl queueStep ⟨[], []⟩

/-- The callers in enqueue order. -/
def enqueuedOrder (evs : List QueueEvent) : List Nat :=
  evs.filterMap (fun e => match e with | .enq c => some c | .wake => none)

/-- Helper: along any event sequence, granted callers followed by waiting
callers always equal the enqueue order, and each wake-up grants at most one
caller. -/
theorem queueRun_aux : ∀ (evs : List QueueEvent) (s : WaitQueueState),
    (evs.foldl queueStep s).grantedOrder ++ (evs.foldl queueStep s).waiting =
      s.grantedOrder ++ s.waiting ++ enqueuedOrder evs ∧
    (evs.foldl queueStep s).grantedOrder.length ≤
      s.grantedOrder.length + (evs.filter (fun e => e = .wake)).length := by
  intro evs
  induction evs with
  | nil => intro s; simp [enqueuedOrder]
  | cons e rest ih =>
    intro s
    cases e with
    | enq c =>
      have h := ih { s with waiting := s.waiting ++ [c] }
      rw [List.foldl_cons]
      refine ⟨?_, ?_⟩
      · rw [show queueStep s (.enq c) = { s with waiting := s.waiting ++ [c] } from rfl, h.1]
        simp [enqueuedOrder, List.filterMap_cons, List.append_assoc]
      · rw [show queueStep s (.enq c) = { s with waiting := s.waiting ++ [c] } from rfl]
        have h2 := h.2
        simp only [List.filter_cons]
        simp at h2 ⊢
        omega
    | wake =>
      rw [List.foldl_cons]
      cases hw : s.waiting with
      | nil =>
        have hstep : queueStep s .wake = s := by simp [queueStep, hw]
        rw [hstep]
        have h := ih s
        refine ⟨?_, ?_⟩
        · rw [h.1]; simp [enqueuedOrder, List.filterMap_cons, hw]
        · have h2 := h.2
          simp only [List.filter_cons]
          simp at h2 ⊢
          omega
      | cons c rest' =>
        have hstep : queueStep s .wake =
            { grantedOrder := s.grantedOrder ++ [c], waiting := rest' } := by
          simp [queueStep, hw]
        rw [hstep]
        have h := ih { grantedOrder := s.grantedOrder ++ [c], waiting := rest' }
        refine ⟨?_, ?_⟩
        · rw [h.1]
          simp [enqueuedOrder, List.filterMap_cons, List.append_assoc]
        · have h2 := h.2
          simp only [List.filter_cons]
          simp at h2 ⊢
          omega

/-- C7: FIFO fairness of the wait queue, modelled from the spec.  For every
event sequence, the sequence of granted callers followed by the still-waiting
callers equals the enqueue order, the granted sequence is exactly an initial
prefix of the enqueue order, and each freed slot admits at most one caller
(the head, i.e. the longest-waiting one).  Hence if caller A enqueues
strictly before caller B, A is granted no later than B, and no waiter is
overtaken by a newer arrival. -/
theorem waitQueue_fifo (evs : List QueueEvent) :
    (queueRun evs).grantedOrder ++ (queueRun evs).waiting = enqueuedOrder evs ∧
    (queueRun evs).grantedOrder =
      (enqueuedOrder evs).take (queueRun evs).grantedOrder.length ∧
    (queueRun evs).grantedOrder.length ≤ (evs.filter (fun e => e = .wake)).length := by
  have h := queueRun_aux evs ⟨[], []⟩
  have h1 : (queueRun evs).grantedOrder ++ (queueRun evs).waiting = enqueuedOrder evs := by
    have := h.1
    simpa [queueRun] using this
  refine ⟨h1, ?_, ?_⟩
  · rw [← h1, List.take_left]
  · have := h.2
    simpa [queueRun] using this

/-- JS truthiness of an optional string: `undefined` and the empty string
are falsy, every other string is truthy. -/
def jsTruthy : Option String → Bool
  | none => false
  | some s => !(s == "")

/-- The JS `||` operator on optional strings: the left operand if truthy,
otherwise the right operand. -/
def jsOr (a b : Option String) : Option String :=
  if jsTruthy a then a else b

/-- Embedding of `boardId || this.activeConfig.boardId || this.defaultBoardId`
(trello-client.ts line 262 and its copies). -/
def resolveBoardId (arg active dflt : Option String) : Option String :=
  jsOr (jsOr arg active) dflt

/-- Result of a board-scoped call: either the `McpError` thrown before any
upstream request, or the upstream request issued against the resolved board. -/
inductive BoardCall where
  | err (e : McpError)
  | request (boardId : String)
deriving DecidableEq, Repr

/-- Embedding of the shared guard of `getLists`, `getRecentActivity`,
`addList`, `getBoardMembers`, `getBoardLabels` and `createLabel`
(trello-client.ts lines 261-273, 275-289, 360-375, 996-1008, 1033-1045,
1047-1066; the six functions carry textually identical resolution and guard
code): resolve the effective board id, throw `InvalidParams` without any
upstream request if it is falsy, and otherwise issue the upstream request
against it. -/
def boardScopedCall (arg active dflt : Option String) : BoardCall :=
  let eff := resolveBoardId arg active dflt
  if jsTruthy eff then .request (eff.getD "")
  else .err ⟨.invalidParams, "boardId is required when no default board is configured", none⟩

/-- C8: when the boardId argument, the active board and the default board
are all absent (falsy), the board-scoped calls throw an `McpError` with code
`InvalidParams` and issue no upstream request; otherwise the first available
identifier — explicit argument, then active board, then default board — is
the one used for the upstream request. -/
theorem boardScopedCall_resolution (arg active dflt : Option String) :
    (jsTruthy arg = false → jsTruthy active = false → jsTruthy dflt = false →
      boardScopedCall arg active dflt =
        .err ⟨.invalidParams, "boardId is required when no default board is configured", none⟩) ∧
    (∀ s, arg = some s → jsTruthy arg = true →
      boardScopedCall arg active dflt = .request s) ∧
    (∀ s, jsTruthy arg = false → active = some s → jsTruthy active = true →
      boardScopedCall arg active dflt = .request s) ∧
    (∀ s, jsTruthy arg = false → jsTruthy active = false → dflt = some s →
      jsTruthy dflt = true → boardScopedCall arg active dflt = .request s) := by
  refine ⟨?_, ?_, ?_, ?_⟩
  · intro h1 h2 h3
    simp [boardScopedCall, resolveBoardId, jsOr, h1, h2, h3]
  · intro s hs ht
    subst hs
    simp [boardScopedCall, resolveBoardId, jsOr, ht]
  · intro s h1 hs ht
    subst hs
    simp [boardScopedCall, resolveBoardId, jsOr, h1, ht]
  · intro s h1 h2 hs ht
    subst hs
    simp [boardScopedCall, resolveBoardId, jsOr, h1, h2, ht]

/-- C8 (witness): the theorem applied at concrete configurations — all three
identifiers absent yields the `InvalidParams` error, and an explicit argument
wins over a configured active board. -/
theorem boardScopedCall_resolution_witness :
    boardScopedCall none none none =
      .err ⟨.invalidParams, "boardId is required when no default board is configured", none⟩ ∧
    boardScopedCall (some "b9") (some "b2") none = .request "b9" :=
  ⟨(boardScopedCall_resolution none none none).1 rfl rfl rfl,
   (boardScopedCall_resolution (some "b9") (some "b2") none).2.1 "b9" rfl rfl⟩

/-- A Trello board as returned by `getBoardById` (only the fields the claims
need). -/
structure TrelloBoard where
  id : String
  name : String
deriving DecidableEq, Repr

/-- The in-memory client configuration relevant to `setActiveBoard`:
credentials and the active board/workspace ids (`this.activeConfig`). -/
structure ClientState where
  apiKey : String
  token : String
  activeBoardId : Option String
  activeWorkspaceId : Option String
deriving DecidableEq, Repr

/-- An error raised by a client call: an `McpError` (from `handleRequest`)
or a plain `Error` (from `saveConfig`). -/
inductive CallError where
  | mcp (e : McpError)
  | plain (msg : String)
deriving DecidableEq, Repr

/-- Embedding of `setActiveBoard` (trello-client.ts lines 137-143) together
with `saveConfig` (lines 106-118).  `fetch` is the outcome of the verifying
`getBoardById` call; `saveOk` is whether writing the config file succeeds
(on failure `saveConfig` throws `Error('Failed to save configuration')`).
The returned pair is the call's outcome and the resulting in-memory state:
on fetch failure the exception propagates before the assignment, on fetch
success `activeConfig.boardId` is assigned and then the config is saved. -/
def setActiveBoard (st : ClientState) (boardId : String)
    (fetch : Except CallError TrelloBoard) (saveOk : Bool) :
    Except CallError TrelloBoard × ClientState :=
  match fetch with
  | .error e => (.error e, st)
  | .ok board =>
    let st' := { st with activeBoardId := some boardId }
    if saveOk then (.ok board, st')
    else (.error (.plain "Failed to save configuration"), st')

/-- A concrete client state for the C9 witness and counterexample. -/
def st0 : ClientState := ⟨"key", "tok", some "oldBoard", some "ws1"⟩

/-- A concrete board for the C9 witness and counterexample. -/
def board0 : TrelloBoard := ⟨"b1", "Board One"⟩

/-- C9 (counterexample): the claim says that whenever the verifying fetch
succeeds, the returned value is the fetched board.  If the fetch succeeds
but persisting the configuration fails, `setActiveBoard` instead raises
`Error('Failed to save configuration')` — while the in-memory active board
id has already been updated. -/
theorem C9_counterexample :
    (setActiveBoard st0 "b1" (.ok board0) false).1 =
      .error (.plain "Failed to save configuration") ∧
    (setActiveBoard st0 "b1" (.ok board0) false).1 ≠ .ok board0 ∧
    (setActiveBoard st0 "b1" (.ok board0) false).2.activeBoardId = some "b1" := by
  refine ⟨rfl, fun h => Except.noConfusion h, rfl⟩

/-- C9 (amended): if the verifying fetch fails, the error propagates and the
active configuration is unchanged.  If the fetch succeeds, the active board
id is set to the given `boardId` and the workspace id and credentials are
unchanged; the fetched board is returned when saving the configuration
succeeds, while a save failure raises `Error('Failed to save configuration')`
with the in-memory active board id already updated. -/
theorem setActiveBoard_spec (st : ClientState) (boardId : String)
    (fetch : Except CallError TrelloBoard) (saveOk : Bool) :
    (∀ e, fetch = .error e → setActiveBoard st boardId fetch saveOk = (.error e, st)) ∧
    (∀ b, fetch = .ok b →
      (setActiveBoard st boardId fetch saveOk).2.activeBoardId = some boardId ∧
      (setActiveBoard st boardId fetch saveOk).2.activeWorkspaceId = st.activeWorkspaceId ∧
      (setActiveBoard st boardId fetch saveOk).2.apiKey = st.apiKey ∧
      (setActiveBoard st boardId fetch saveOk).2.token = st.token ∧
      (saveOk = true → (setActiveBoard st boardId fetch saveOk).1 = .ok b) ∧
      (saveOk = false → (setActiveBoard st boardId fetch saveOk).1 =
        .error (.plain "Failed to save configuration"))) := by
  refine ⟨?_, ?_⟩
  · intro e he
    subst he
    rfl
  · intro b hb
    subst hb
    cases saveOk with
    | true =>
      refine ⟨rfl, rfl, rfl, rfl, fun _ => rfl, fun h => by simp at h⟩
    | false =>
      refine ⟨rfl, rfl, rfl, rfl, fun h => by simp at h, fun _ => rfl⟩

/-- C9 (witness): the amended theorem applied at a concrete state with a
successful fetch and a successful save. -/
theorem setActiveBoard_spec_witness :
    (setActiveBoard st0 "b1" (.ok board0) true).1 = .ok board0 ∧
    (setActiveBoard st0 "b1" (.ok board0) true).2.activeBoardId = some "b1" ∧
    (setActiveBoard st0 "b1" (.ok board0) true).2.activeWorkspaceId = st0.activeWorkspaceId :=
  ⟨((setActiveBoard_spec st0 "b1" (.ok board0) true).2 board0 rfl).2.2.2.2.1 rfl,
   ((setActiveBoard_spec st0 "b1" (.ok board0) true).2 board0 rfl).1,
   ((setActiveBoard_spec st0 "b1" (.ok board0) true).2 board0 rfl).2.1⟩

/-- A Trello checklist item: its id, name, and state (the string
`complete` or `incomplete`). -/
structure TrelloCheckItem where
  id : String
  name : String
  state : String
deriving DecidableEq, Repr

/-- An MCP checklist item as produced by `convertToCheckListItem`. -/
structure CheckListItem where
  id : String
  text : String
  complete : Bool
  parentCheckListId : String
deriving DecidableEq, Repr

/-- A Trello checklist: id, name and its check items. -/
structure TrelloChecklist where
  id : String
  name : String
  checkItems : List TrelloCheckItem
deriving DecidableEq, Repr

/-- An MCP checklist as produced by `convertToCheckList`.  JS numbers are
modelled as exact rationals, so the rounded percentage is an integer. -/
structure CheckList where
  id : String
  name : String
  items : List CheckListItem
  percentComplete : ℤ
deriving DecidableEq, Repr

/-- JS `Math.round` on a nonnegative number: round half toward positive
infinity, i.e. the floor of `q + 1/2`. -/
def jsRound (q : ℚ) : ℤ := ⌊q + 1 / 2⌋

/-- Embedding of `convertToCheckListItem` (trello-client.ts lines 966-976):
an item is complete iff its state equals the string `complete`. -/
def convertToCheckListItem (item : TrelloCheckItem) (parentCheckListId : String) :
    CheckListItem :=
  ⟨item.id, item.name, item.state == "complete", parentCheckListId⟩

/-- Embedding of `convertToCheckList` (trello-client.ts lines 978-993):
count the complete items, and compute
`Math.round((completedItems / totalItems) * 100)` guarded by
`totalItems > 0`, with 0 for an empty checklist. -/
def convertToCheckList (cl : TrelloChecklist) : CheckList :=
  let completedItems := (cl.checkItems.filter (fun it => it.state == "complete")).length
  let totalItems := cl.checkItems.length
  let percentComplete : ℤ :=
    if totalItems > 0 then jsRound ((completedItems : ℚ) / (totalItems : ℚ) * 100) else 0
  ⟨cl.id, cl.name, cl.checkItems.map (fun it => convertToCheckListItem it cl.id), percentComplete⟩

/-- C10: `convertToCheckList` returns `percentComplete` equal to
`round(100 * completedItems / totalItems)` when the checklist has at least
one item and exactly 0 when it has none, so the division is guarded and the
result is always an integer between 0 and 100; an item counts as completed
iff its state equals `complete`. -/
theorem convertToCheckList_percent (cl : TrelloChecklist) :
    (cl.checkItems.length = 0 → (convertToCheckList cl).percentComplete = 0) ∧
    (0 < cl.checkItems.length →
      (convertToCheckList cl).percentComplete =
        jsRound (100 * ((cl.checkItems.filter (fun it => it.state == "complete")).length : ℚ) /
          (cl.checkItems.length : ℚ))) ∧
    0 ≤ (convertToCheckList cl).percentComplete ∧
    (convertToCheckList cl).percentComplete ≤ 100 ∧
    (∀ item ∈ cl.checkItems, ∀ pid,
      (convertToCheckListItem item pid).complete = (item.state == "complete")) := by
  set c := (cl.checkItems.filter (fun it => it.state == "complete")).length with hc
  set t := cl.checkItems.length with htl
  have hct : c ≤ t := List.length_filter_le _ _
  refine ⟨?_, ?_, ?_, ?_, ?_⟩
  · intro h0
    simp [convertToCheckList, ← htl, h0]
  · intro hpos
    simp only [convertToCheckList, ← hc, ← htl, if_pos hpos]
    congr 1
    field_simp
    ring
  · by_cases hpos : 0 < t
    · simp only [convertToCheckList, ← hc, ← htl, if_pos hpos]
      rw [jsRound]
      have hq : (0 : ℚ) ≤ (c : ℚ) / (t : ℚ) * 100 := by positivity
      have h1 : (0 : ℚ) ≤ (c : ℚ) / (t : ℚ) * 100 + 1 / 2 := by linarith
      exact Int.floor_nonneg.mpr h1
    · have h0 : t = 0 := by omega
      simp [convertToCheckList, ← htl, h0]
  · by_cases hpos : 0 < t
    · simp only [convertToCheckList, ← hc, ← htl, if_pos hpos]
      rw [jsRound]
      have htQ : (0 : ℚ) < (t : ℚ) := by exact_mod_cast hpos
      have hdiv : (c : ℚ) / (t : ℚ) ≤ 1 := by
        rw [div_le_one htQ]
        exact_mod_cast hct
      have hle : (c : ℚ) / (t : ℚ) * 100 + 1 / 2 ≤ 201 / 2 := by linarith
      calc ⌊(c : ℚ) / (t : ℚ) * 100 + 1 / 2⌋ ≤ ⌊(201 : ℚ) / 2⌋ := Int.floor_le_floor hle
        _ = 100 := by norm_num
    · have h0 : t = 0 := by omega
      simp [convertToCheckList, ← htl, h0]
  · intro item _ pid
    rfl

/-- A concrete checklist for the C10 witness: two of three items complete. -/
def checklist0 : TrelloChecklist :=
  ⟨"cl1", "Acceptance Criteria",
    [⟨"i1", "first", "complete"⟩, ⟨"i2", "second", "incomplete"⟩, ⟨"i3", "third", "complete"⟩]⟩

/-- C10 (witness): the theorem applied at a concrete checklist with 2 of 3
items complete. -/
theorem convertToCheckList_percent_witness :
    (convertToCheckList checklist0).percentComplete =
      jsRound (100 * ((checklist0.checkItems.filter
        (fun it => it.state == "complete")).length : ℚ) /
        (checklist0.checkItems.length : ℚ)) :=
  (convertToCheckList_percent checklist0).2.1 (by decide)

end Trello
